import Mathlib

/-!
Verification of the `gobuild` compilation orchestrator.

This file gives a shallow embedding, in Lean 4, of the Go sources of the
`tinywasm/gobuild` repository (`gobuild.go`, `compiler.go`, the in-memory
compilation code, and the `BinarySizer` collaborator), and proves or refutes
the specification claims about them.

Modelling conventions:
- The external process run is abstracted by an outcome record (captured
  output bytes, the error returned by `Run`/`CombinedOutput` if any, and
  whether the context's deadline had elapsed).  The orchestrator code is
  translated statement by statement around that outcome.
- Go `error` values are modelled by an inductive of error kinds carrying the
  message text built exactly as the source builds it; the timeout error
  carries the configured duration that its message interpolates (Go renders
  a `time.Duration`; the rendering itself is not modelled).
- The mutex-guarded critical sections of the orchestrator are modelled as
  atomic state-transition functions on the orchestrator state.
- `float64` arithmetic in `BinarySizer` divides a byte count by a power of
  two and prints it with `%.1f`; for counts below `2^53` that division is
  exact in binary floating point and Go prints the correctly rounded
  decimal (ties to even), so it is modelled by exact rational rounding.
-/

namespace Gobuild

/-- Go string test for a leading pattern (`strStarts s pre` models the Go
standard-library check that `s` begins with `pre`; Go compares bytes, this
model compares characters, which agrees on these ASCII tokens). -/
def strStarts (s pre : String) : Bool := pre.data.isPrefixOf s.data

/-- Splitting a character list at every slash, as Go's path code walks
elements between separators. -/
def splitSlashAux : List Char → List Char → List String
  | [], cur => [String.mk cur.reverse]
  | c :: rest, cur =>
    if c = '/' then String.mk cur.reverse :: splitSlashAux rest []
    else splitSlashAux rest (c :: cur)

/-- Split a path into its slash-separated elements. -/
def splitSlash (p : String) : List String := splitSlashAux p.data []

/-- Go `strings.Join`: concatenate with a separator between elements. -/
def goJoin (sep : String) : List String → String
  | [] => ""
  | [x] => x
  | x :: y :: xs => x ++ sep ++ goJoin sep (y :: xs)

/-- Go `path.IsAbs`: a path is absolute when it begins with a slash. -/
def goIsAbs (p : String) : Bool := strStarts p "/"

/-- Element loop of Go `path.Clean`: empty and `.` elements are dropped,
`..` pops the last kept element unless the path is rooted at the top or the
path is unrooted with nothing left to pop. -/
def cleanLoop (rooted : Bool) : List String → List String → List String
  | [], acc => acc.reverse
  | e :: rest, acc =>
    if e = "" || e = "." then cleanLoop rooted rest acc
    else if e = ".." then
      match acc with
      | top :: acc2 =>
        if top = ".." then cleanLoop rooted rest (e :: acc)
        else cleanLoop rooted rest acc2
      | [] =>
        if rooted then cleanLoop rooted rest acc
        else cleanLoop rooted rest [".."]
    else cleanLoop rooted rest (e :: acc)

/-- Go `path.Clean` on slash-separated paths. -/
def goClean (p : String) : String :=
  if p = "" then "."
  else
    let rooted := strStarts p "/"
    let elems := cleanLoop rooted (splitSlash p) []
    if rooted then "/" ++ goJoin "/" elems
    else if elems = [] then "." else goJoin "/" elems

/-- Go `path.Join` restricted to two elements, as `buildArguments` uses it:
empty elements are skipped, the rest joined with a slash, then cleaned; the
all-empty case returns the empty string without cleaning. -/
def goPathJoin (a b : String) : String :=
  if a = "" && b = "" then ""
  else if a = "" then goClean b
  else if b = "" then goClean a
  else goClean (a ++ "/" ++ b)

/-- The caller-supplied `Config` struct.  The optional extra-flags provider
`CompilingArguments` is modelled by the list it would return (`none` for a
nil function), the logger and callback by their presence, and the timeout
duration by its value in nanoseconds. -/
structure Config where
  AppRootDir : String
  Command : String
  MainInputFileRelativePath : String
  OutName : String
  Extension : String
  CompilingArguments : Option (List String)
  OutFolderRelativePath : String
  hasLogger : Bool
  hasCallback : Bool
  Timeout : Nat
  Env : List String
deriving DecidableEq

/-- The flag loop of `GoBuild.buildArguments`: splits the extra flags into
the ordinary build arguments and the collected `-X` link flags.  A token
equal to `-X` consumes the following token as its value; a `-X`-prefixed
token (with or without an embedded `=`) is kept as a single link flag;
every other token passes through in order. -/
def collectFlags : List String → List String × List String
  | [] => ([], [])
  | arg :: rest =>
    if strStarts arg "-X" then
      if arg = "-X" then
        match rest with
        | v :: rest2 =>
          let p := collectFlags rest2
          (p.1, arg :: v :: p.2)
        | [] => ([], [arg])
      else
        let p := collectFlags rest
        (p.1, arg :: p.2)
    else
      let p := collectFlags rest
      (arg :: p.1, p.2)

/-- The output-path logic of `GoBuild.buildArguments`: a destination that is
absolute or begins with `/dev/` is used verbatim, anything else is joined
with the output directory. -/
def resolveDest (cfg : Config) (tempFileName : String) : String :=
  if goIsAbs tempFileName || strStarts tempFileName "/dev/" then tempFileName
  else goPathJoin cfg.OutFolderRelativePath tempFileName

/-- `GoBuild.buildArguments`: `build`, then the ordinary flags, then one
consolidated `-ldflags=` token when any link flags were collected, then
`-o`, the resolved output path, and the entry source file. -/
def buildArguments (cfg : Config) (tempFileName : String) : List String :=
  let p := match cfg.CompilingArguments with
    | none => (([], []) : List String × List String)
    | some args => collectFlags args
  let buildArgs := "build" :: p.1
  let buildArgs :=
    if p.2.isEmpty then buildArgs
    else buildArgs ++ ["-ldflags=" ++ goJoin " " p.2]
  buildArgs ++ ["-o", resolveDest cfg tempFileName, cfg.MainInputFileRelativePath]

/-- Error kinds surfaced by the orchestrator.  `buildFailure` and
`renameFailure` carry the message the source formats; `timeout` carries the
configured duration its message interpolates. -/
inductive CompErr where
  | buildFailure (msg : String)
  | timeout (ns : Nat)
  | renameFailure (msg : String)
deriving DecidableEq

/-- Whether an error is the distinct timeout kind. -/
def CompErr.isTimeout : CompErr → Bool
  | .timeout _ => true
  | _ => false

/-- The filesystem namespace the disk strategy touches: the list of paths
that currently exist. -/
abbrev Fs := List String

/-- Modelled from the spec: `GoBuild.cleanupTempFile` is not in the provided
sources; per §4.2 it deletes the temp artifact if it exists. -/
def cleanupTempFile (fs : Fs) (tmp : String) : Fs :=
  fs.filter (fun q => q ≠ tmp)

/-- `GoBuild.FinalOutputPath`: output directory joined with base name plus
extension. -/
def finalOutputPath (cfg : Config) : String :=
  goPathJoin cfg.OutFolderRelativePath (cfg.OutName ++ cfg.Extension)

/-- Modelled from the spec: `GoBuild.renameOutputFile` is not in the provided
sources; per §4.2 it atomically renames the temp artifact to the final
output path, and a rename failure is reported as its own error, distinct
from build failure.  The rename outcome is supplied by the oracle
`renameErr`. -/
def renameOutputFile (cfg : Config) (fs : Fs) (tmp : String)
    (renameErr : Option String) : Except CompErr Unit × Fs :=
  match renameErr with
  | some e => (.error (.renameFailure e), fs)
  | none => (.ok (), finalOutputPath cfg :: cleanupTempFile fs tmp)

/-- Outcome of the external process for the disk path: the combined
standard-output/standard-error bytes, the error `CombinedOutput` returned
(`none` on exit status zero), and whether the context deadline had elapsed. -/
structure SyncOutcome where
  combinedOutput : String
  procErr : Option String
  deadlineExceeded : Bool
deriving DecidableEq

/-- The error message `compileSync` formats on a process error: the
`compileSync build failed:` prefix, the process error, and the captured
combined output appended when non-empty. -/
def syncFailMsg (err output : String) : String :=
  let errMsg := "compileSync build failed: " ++ err
  if output.length > 0 then errMsg ++ " " ++ output else errMsg

/-- `GoBuild.compileSync` around the process outcome: on a process error it
formats the failure message, deletes the temp file and fails with a build
error; on success it renames the temp artifact.  The context deadline is
never inspected on this path. -/
def compileSync (cfg : Config) (tmp : String) (out : SyncOutcome) (fs : Fs)
    (renameErr : Option String) : Except CompErr Unit × Fs :=
  match out.procErr with
  | some err =>
    (.error (.buildFailure (syncFailMsg err out.combinedOutput)), cleanupTempFile fs tmp)
  | none => renameOutputFile cfg fs tmp renameErr

/-- One Compilation Job: its identity (unique per request, standing in for
the Go pointer identity), its temp-artifact name (`"memory"` sentinel for
memory mode), and the captured output bytes field of memory-mode jobs. -/
structure Job where
  jid : Nat
  tempFile : String
  memoryBytes : List UInt8
deriving DecidableEq

/-- Orchestrator state behind the mutex: the single active-job reference,
the next fresh job identity, and the identities whose cancellation trigger
has been fired. -/
structure BuildState where
  active : Option Job
  nextId : Nat
  cancelled : List Nat
deriving DecidableEq

/-- A freshly constructed orchestrator has no active job. -/
def initState : BuildState :=
  { active := none, nextId := 0, cancelled := [] }

/-- The `if h.active != nil { h.active.cancel(); h.active = nil }` fragment
shared by every new request: fire the active job's cancellation trigger and
clear the reference. -/
def cancelActive (s : BuildState) : BuildState :=
  match s.active with
  | some j => { s with active := none, cancelled := j.jid :: s.cancelled }
  | none => s

/-- Install a fresh Compilation Job as the active one. -/
def installJob (s : BuildState) (tmp : String) : Job × BuildState :=
  let comp : Job := { jid := s.nextId, tempFile := tmp, memoryBytes := [] }
  (comp, { s with active := some comp, nextId := s.nextId + 1 })

/-- The locked prologue of `CompileProgram` and `CompileToMemory`: cancel
and clear any active job, then install the new one. -/
def startJob (s : BuildState) (tmp : String) : Job × BuildState :=
  installJob (cancelActive s) tmp

/-- The locked epilogue of a completing job: clear the active-job reference
only when it still points to this very job. -/
def finishJob (s : BuildState) (j : Job) : BuildState :=
  match s.active with
  | some a => if a.jid = j.jid then { s with active := none } else s
  | none => s

/-- `GoBuild.Cancel`: fire and clear the active job if any; returns `none`
(no error) in both branches. -/
def Cancel (s : BuildState) : Option CompErr × BuildState :=
  match s.active with
  | some j => (none, { s with active := none, cancelled := j.jid :: s.cancelled })
  | none => (none, s)

/-- `GoBuild.IsCompiling`. -/
def isCompiling (s : BuildState) : Bool :=
  s.active.isSome

/-- Identities of active jobs are below the fresh counter. -/
def wfState (s : BuildState) : Prop :=
  ∀ j, s.active = some j → j.jid < s.nextId

/-- Outcome of the external process for the memory path: the bytes captured
from standard output, the bytes captured from standard error, the error
`cmd.Run` returned, and whether the context deadline had elapsed. -/
structure MemOutcome where
  stdoutBuf : List UInt8
  stderrBuf : String
  procErr : Option String
  deadlineExceeded : Bool
deriving DecidableEq

/-- The external command description (`exec.Cmd` fields the orchestrator
sets before running). -/
structure Cmd where
  dir : String
  env : List String
  args : List String
deriving DecidableEq

/-- The command `CompileToMemory` constructs: working directory is the
configured root directory, the environment is `os.Environ()` alone (the
source assigns only the inherited environment), and the arguments use the
`/dev/stdout` destination. -/
def memCmd (cfg : Config) (osEnv : List String) : Cmd :=
  { dir := cfg.AppRootDir
    env := osEnv
    args := buildArguments cfg "/dev/stdout" }

/-- The command `compileSync` constructs via `CompileProgram`: working
directory is the output folder; the environment is the inherited one with
the configured overrides appended when any are set (`cmd.Env` stays nil,
meaning plain inheritance, otherwise). -/
def syncCmd (cfg : Config) (osEnv : List String) (tmp : String) : Cmd :=
  { dir := cfg.OutFolderRelativePath
    env := if cfg.Env.length > 0 then osEnv ++ cfg.Env else osEnv
    args := buildArguments cfg tmp }

/-- `GoBuild.CompileToMemory` around the process outcome: the locked
prologue installs a job whose `memoryBytes` stays at its zero value, the
locked epilogue clears it, then the deadline is checked first, a process
error second, and on success the captured standard-output buffer is
returned verbatim.  Nothing ever writes the buffer into the job. -/
def compileToMemory (cfg : Config) (s : BuildState) (out : MemOutcome) :
    Except CompErr (List UInt8) × BuildState :=
  let r := startJob s "memory"
  let s2 := finishJob r.2 r.1
  if out.deadlineExceeded then (.error (.timeout cfg.Timeout), s2)
  else
    match out.procErr with
    | some e =>
      (.error (.buildFailure ("compilation failed: " ++ e ++ "\nOutput: " ++ out.stderrBuf)), s2)
    | none => (.ok out.stdoutBuf, s2)

/-- `GoBuild.getBinaryBytes`: return the active job's `memoryBytes` when an
active job holds a non-empty buffer, otherwise fall back to reading the
final output path from disk (a read error yields nil, modelled as `[]`). -/
def getBinaryBytes (cfg : Config) (s : BuildState)
    (fs : String → Option (List UInt8)) : List UInt8 :=
  match s.active with
  | some j =>
    if j.memoryBytes.length > 0 then j.memoryBytes
    else (fs (finalOutputPath cfg)).getD []
  | none => (fs (finalOutputPath cfg)).getD []

/-- The `GoBuild` struct fields precomputed at construction. -/
structure GoBuild where
  config : Config
  outFileName : String
  outTempFileName : String
deriving DecidableEq

/-- Default timeout written by `New`: five seconds in nanoseconds. -/
def fiveSeconds : Nat := 5000000000

/-- `New`: writes the five-second default into the caller's `Config` when
the timeout is zero (the caller's struct itself, reached through the shared
pointer), then precomputes the output file names.  The first component is
the caller's configuration object as it stands after the call; the builder
holds that same object. -/
def New (c : Config) : Config × GoBuild :=
  let c2 := if c.Timeout = 0 then { c with Timeout := fiveSeconds } else c
  (c2,
    { config := c2
      outFileName := c2.OutName ++ c2.Extension
      outTempFileName := c2.OutName ++ "_temp" ++ c2.Extension })

/-- Round `m / d` to the nearest integer, ties to the even neighbour
(`d > 0`); this is how Go prints the exact value of a binary float. -/
def roundTE (m d : Nat) : Nat :=
  let q := m / d
  let r := m % d
  if 2 * r < d then q
  else if d < 2 * r then q + 1
  else if q % 2 = 0 then q else q + 1

/-- Go `fmt.Sprintf` with `%.1f` applied to the exact rational `n / d` (for
`d` a power of two and `n < 2^53` the float64 quotient is exact, and Go
prints its correctly rounded one-decimal form). -/
def fmt1 (n d : Nat) : String :=
  let t := roundTE (n * 10) d
  toString (t / 10) ++ "." ++ toString (t % 10)

/-- Byte-count thresholds of `BinarySizer.BinarySize`. -/
def KB : Nat := 1024

/-- One megabyte. -/
def MB : Nat := 1024 * 1024

/-- One gigabyte. -/
def GB : Nat := 1024 * 1024 * 1024

/-- The unit/format branch of `BinarySizer.BinarySize` on a byte count. -/
def sizeFormat (size : Nat) : String :=
  if GB ≤ size then fmt1 size GB ++ " GB"
  else if MB ≤ size then fmt1 size MB ++ " MB"
  else fmt1 size KB ++ " KB"

/-- `BinarySizer.BinarySize`: `"0.0 KB"` when the accessor is nil (`none`)
or the returned slice is nil/empty, otherwise the formatted size. -/
def BinarySize (getBinary : Option (List UInt8)) : String :=
  match getBinary with
  | none => "0.0 KB"
  | some bs =>
    if bs.length = 0 then "0.0 KB"
    else sizeFormat bs.length

/-- The synchronous path of `GoBuild.CompileProgram`: locked prologue with a
timestamped temp name, `compileSync`, locked epilogue. -/
def CompileProgramSync (cfg : Config) (s : BuildState) (nano : Nat)
    (out : SyncOutcome) (fs : Fs) (renameErr : Option String) :
    Except CompErr Unit × BuildState × Fs :=
  let tmp := cfg.OutName ++ "_temp_" ++ toString nano ++ cfg.Extension
  let r := startJob s tmp
  let res := compileSync cfg tmp out fs renameErr
  (res.1, finishJob r.2 r.1, res.2)

/-- A sample configuration used to instantiate witnesses. -/
def cfgA : Config :=
  { AppRootDir := "/proj"
    Command := "go"
    MainInputFileRelativePath := "main.go"
    OutName := "app"
    Extension := ".exe"
    CompilingArguments := none
    OutFolderRelativePath := "web"
    hasLogger := false
    hasCallback := false
    Timeout := 0
    Env := [] }

/-- Extra flags with no `-X`-prefixed token pass through `collectFlags`
unchanged and collect no link flags. -/
theorem collectFlags_ordinary (args : List String)
    (h : ∀ a ∈ args, strStarts a "-X" = false) :
    collectFlags args = (args, []) := by
  induction args with
  | nil => rfl
  | cons a rest ih =>
    have ha : strStarts a "-X" = false := h a (List.mem_cons_self a rest)
    have hr : ∀ b ∈ rest, strStarts b "-X" = false :=
      fun b hb => h b (List.mem_cons_of_mem a hb)
    unfold collectFlags
    rw [ha]
    simp [ih hr]

/-- Appending a one-space-then-unit suffix is the same as appending the
space and the unit separately. -/
theorem append_space_split (x u su : String) (h : " " ++ u = su) :
    x ++ su = x ++ " " ++ u := by
  rw [String.append_assoc, h]

/-- C10: constructing a builder with `New` writes the 5-second default into
the caller's `Config` exactly when its timeout is zero, the builder holds
that same mutated object, and every other configuration field is left
unchanged by construction. -/
theorem New_default_timeout (c : Config) :
    ((New c).1.Timeout = if c.Timeout = 0 then fiveSeconds else c.Timeout) ∧
    (New c).2.config = (New c).1 ∧
    (New c).1.AppRootDir = c.AppRootDir ∧
    (New c).1.Command = c.Command ∧
    (New c).1.MainInputFileRelativePath = c.MainInputFileRelativePath ∧
    (New c).1.OutName = c.OutName ∧
    (New c).1.Extension = c.Extension ∧
    (New c).1.CompilingArguments = c.CompilingArguments ∧
    (New c).1.OutFolderRelativePath = c.OutFolderRelativePath ∧
    (New c).1.hasLogger = c.hasLogger ∧
    (New c).1.hasCallback = c.hasCallback ∧
    (New c).1.Env = c.Env := by
  by_cases h : c.Timeout = 0 <;> simp [New, h]

/-- C8: the Binary Size Formatter renders `"<magnitude>.<1 decimal digit>
<UNIT>"` with the unit chosen as the largest of GB/MB with magnitude at
least 1, flooring at KB; a byte count below one megabyte (such as
`1024*1024 - 1`) renders in KB while `1024*1024` renders as `"1.0 MB"`;
and a nil accessor, a nil slice, or an empty slice all render `"0.0 KB"`. -/
theorem binarySize_contract (n : Nat) :
    (∃ (a b : Nat) (u : String),
      sizeFormat n = toString a ++ "." ++ toString b ++ " " ++ u ∧ b < 10 ∧
      ((u = "GB" ∧ GB ≤ n) ∨ (u = "MB" ∧ MB ≤ n ∧ n < GB) ∨ (u = "KB" ∧ n < MB))) ∧
    BinarySize none = "0.0 KB" ∧
    BinarySize (some []) = "0.0 KB" ∧
    (∀ bs : List UInt8, bs.length ≠ 0 → BinarySize (some bs) = sizeFormat bs.length) ∧
    sizeFormat (MB - 1) = "1024.0 KB" ∧
    sizeFormat MB = "1.0 MB" := by
  refine ⟨?_, rfl, rfl, ?_, by decide, by decide⟩
  · by_cases hg : GB ≤ n
    · refine ⟨roundTE (n * 10) GB / 10, roundTE (n * 10) GB % 10, "GB",
        ?_, Nat.mod_lt _ (by decide), Or.inl ⟨rfl, hg⟩⟩
      unfold sizeFormat
      rw [if_pos hg, append_space_split (fmt1 n GB) "GB" " GB" rfl]
      rfl
    · by_cases hm : MB ≤ n
      · refine ⟨roundTE (n * 10) MB / 10, roundTE (n * 10) MB % 10, "MB",
          ?_, Nat.mod_lt _ (by decide), Or.inr (Or.inl ⟨rfl, hm, Nat.lt_of_not_le hg⟩)⟩
        unfold sizeFormat
        rw [if_neg hg, if_pos hm, append_space_split (fmt1 n MB) "MB" " MB" rfl]
        rfl
      · refine ⟨roundTE (n * 10) KB / 10, roundTE (n * 10) KB % 10, "KB",
          ?_, Nat.mod_lt _ (by decide), Or.inr (Or.inr ⟨rfl, Nat.lt_of_not_le hm⟩)⟩
        unfold sizeFormat
        rw [if_neg hg, if_neg hm, append_space_split (fmt1 n KB) "KB" " KB" rfl]
        rfl
  · intro bs hbs
    simp [BinarySize, hbs]

/-- Witness for C8 at a concrete one-byte slice. -/
theorem binarySize_contract_witness :
    BinarySize (some [(1 : UInt8)]) = sizeFormat 1 :=
  (binarySize_contract 1).2.2.2.1 [(1 : UInt8)] (by decide)

/-- Decomposition of `buildArguments` for a present extra-flags provider:
`build`, the ordinary flags, the consolidated `-ldflags=` token when any
link flags were collected, then the output flag, resolved path and entry
source file. -/
theorem buildArguments_some (cfg : Config) (args : List String) (d : String) :
    buildArguments { cfg with CompilingArguments := some args } d =
      "build" :: (collectFlags args).1 ++
        (if (collectFlags args).2.isEmpty then []
         else ["-ldflags=" ++ goJoin " " (collectFlags args).2]) ++
        ["-o", resolveDest cfg d, cfg.MainInputFileRelativePath] := by
  by_cases h : (collectFlags args).2.isEmpty <;>
    simp [buildArguments, h, resolveDest, List.append_assoc]

/-- Every produced argument list ends in the output flag, the resolved
destination, and the entry source file. -/
theorem buildArguments_tail (cfg : Config) (d : String) :
    ∃ front, buildArguments cfg d =
      front ++ ["-o", resolveDest cfg d, cfg.MainInputFileRelativePath] := by
  unfold buildArguments
  exact ⟨_, rfl⟩

/-- C5: the Argument Builder sends `-X`-prefixed flags into one
consolidated `-ldflags=` token joined with spaces and placed after the
ordinary flags, which pass through unchanged in their original order; the
two-token form `["-X", "main.version=v1"]` and the single-token form
`["-X main.version=v1"]` produce identical argument lists whose single
`-ldflags=` token carries the segment `-X main.version=v1`. -/
theorem buildArguments_ldflags :
    (∀ (cfg : Config) (d : String),
      buildArguments { cfg with CompilingArguments := some ["-X", "main.version=v1"] } d =
        buildArguments { cfg with CompilingArguments := some ["-X main.version=v1"] } d ∧
      buildArguments { cfg with CompilingArguments := some ["-X", "main.version=v1"] } d =
        ["build", "-ldflags=-X main.version=v1", "-o", resolveDest cfg d,
          cfg.MainInputFileRelativePath]) ∧
    (∀ (cfg : Config) (args : List String) (d : String),
      buildArguments { cfg with CompilingArguments := some args } d =
        "build" :: (collectFlags args).1 ++
          (if (collectFlags args).2.isEmpty then []
           else ["-ldflags=" ++ goJoin " " (collectFlags args).2]) ++
          ["-o", resolveDest cfg d, cfg.MainInputFileRelativePath]) ∧
    (∀ (cfg : Config) (args : List String) (d : String),
      (∀ a ∈ args, strStarts a "-X" = false) →
      buildArguments { cfg with CompilingArguments := some args } d =
        "build" :: args ++ ["-o", resolveDest cfg d, cfg.MainInputFileRelativePath]) := by
  refine ⟨fun cfg d => ⟨rfl, rfl⟩, fun cfg args d => buildArguments_some cfg args d,
    fun cfg args d h => ?_⟩
  rw [buildArguments_some cfg args d, collectFlags_ordinary args h]
  simp

/-- Witness for C5: flags without the linker prefix pass through unchanged
on a concrete configuration. -/
theorem buildArguments_ldflags_witness :
    buildArguments { cfgA with CompilingArguments := some ["-v", "-tags", "dev"] } "app_tmp" =
      ["build", "-v", "-tags", "dev", "-o", "web/app_tmp", "main.go"] := by
  have h := buildArguments_ldflags.2.2 cfgA ["-v", "-tags", "dev"] "app_tmp" (by decide)
  exact h.trans (by decide)

/-- C6: the Argument Builder uses an absolute or `/dev/`-prefixed
destination token verbatim and joins any other token with the configured
output directory, and the resolved path follows the `-o` flag with the
entry source file as the final token. -/
theorem buildArguments_dest (cfg : Config) (d : String) :
    (goIsAbs d = true ∨ strStarts d "/dev/" = true → resolveDest cfg d = d) ∧
    (goIsAbs d = false → strStarts d "/dev/" = false →
      resolveDest cfg d = goPathJoin cfg.OutFolderRelativePath d) ∧
    resolveDest cfg "/dev/stdout" = "/dev/stdout" ∧
    resolveDest { cfg with OutFolderRelativePath := "web" } "app_tmp" = "web/app_tmp" ∧
    (∃ front, buildArguments cfg d =
      front ++ ["-o", resolveDest cfg d, cfg.MainInputFileRelativePath]) := by
  refine ⟨?_, ?_, ?_, ?_, buildArguments_tail cfg d⟩
  · intro h
    have hc : (goIsAbs d || strStarts d "/dev/") = true := by
      rcases h with h | h <;> simp [h]
    simp [resolveDest, hc]
  · intro h1 h2
    simp [resolveDest, h1, h2]
  · rfl
  · rfl

/-- Witness for C6: the `/dev/stdout` destination of the memory path is
used verbatim on a concrete configuration. -/
theorem buildArguments_dest_witness :
    resolveDest cfgA "/dev/stdout" = "/dev/stdout" :=
  (buildArguments_dest cfgA "/dev/stdout").1 (Or.inr (by decide))

deriving instance DecidableEq for Except

/-- Whether a compilation result is the distinct timeout kind of error. -/
def resultIsTimeout {α : Type} : Except CompErr α → Bool
  | .error e => e.isTimeout
  | .ok _ => false

/-- C7: on a process error the disk path deletes the temp artifact and
fails with a build error whose message carries the captured combined
output; on success the only remaining step is the rename, whose failure is
a distinct error kind, never conflated with build failure. -/
theorem compileSync_error_handling (cfg : Config) (tmp : String) (out : SyncOutcome)
    (fs : Fs) (renameErr : Option String) :
    (∀ e, out.procErr = some e →
      compileSync cfg tmp out fs renameErr =
        (.error (.buildFailure (syncFailMsg e out.combinedOutput)), cleanupTempFile fs tmp)) ∧
    (∀ e o : String, o.length ≠ 0 →
      syncFailMsg e o = "compileSync build failed: " ++ e ++ " " ++ o) ∧
    (out.procErr = none → renameErr = none →
      compileSync cfg tmp out fs renameErr =
        (.ok (), finalOutputPath cfg :: cleanupTempFile fs tmp)) ∧
    (∀ f, out.procErr = none → renameErr = some f →
      compileSync cfg tmp out fs renameErr = (.error (.renameFailure f), fs)) ∧
    (∀ f m, (CompErr.renameFailure f = CompErr.buildFailure m) = False) := by
  refine ⟨?_, ?_, ?_, ?_, ?_⟩
  · intro e he
    simp [compileSync, he]
  · intro e o ho
    unfold syncFailMsg
    rw [if_pos (Nat.pos_of_ne_zero ho)]
  · intro h1 h2
    simp [compileSync, h1, renameOutputFile, h2]
  · intro f h1 h2
    simp [compileSync, h1, renameOutputFile, h2]
  · intro f m
    simp

/-- A failed disk run: non-zero exit with a diagnostic on the combined
stream, deadline not elapsed. -/
def outFail : SyncOutcome :=
  { combinedOutput := "main.go:3:1: undefined: foo"
    procErr := some "exit status 1"
    deadlineExceeded := false }

/-- Witness for C7: the failing run deletes the artifact and carries the
diagnostic output in the build error. -/
theorem compileSync_error_handling_witness :
    compileSync cfgA "app_temp_1.exe" outFail ["app_temp_1.exe"] none =
      (.error (.buildFailure "compileSync build failed: exit status 1 main.go:3:1: undefined: foo"),
        []) := by
  have h := (compileSync_error_handling cfgA "app_temp_1.exe" outFail ["app_temp_1.exe"] none).1
    "exit status 1" rfl
  exact h.trans (by decide)

/-- A disk run killed by its elapsed deadline: `CombinedOutput` reports the
kill, the context reports the exceeded deadline. -/
def outTimedOut : SyncOutcome :=
  { combinedOutput := ""
    procErr := some "signal: killed"
    deadlineExceeded := true }

/-- Counterexample to C2 as stated: on the disk path a compilation whose
deadline elapsed (process killed) fails with the generic build-failure
kind, not with a distinct timeout kind. -/
theorem compileSync_timeout_counterexample :
    outTimedOut.deadlineExceeded = true ∧
    (compileSync cfgA "app_temp_1.exe" outTimedOut [] none).1 =
      .error (.buildFailure "compileSync build failed: signal: killed") ∧
    resultIsTimeout (compileSync cfgA "app_temp_1.exe" outTimedOut [] none).1 = false := by
  decide

/-- C2 (amended): when the deadline elapses before the process finishes,
the memory path fails with the distinct timeout-kind error and never with
success or the generic kind, while the disk path (whose killed process
makes `CombinedOutput` return an error) also never succeeds but reports
the generic build-failure kind rather than a distinct timeout kind. -/
theorem timeout_error_kinds :
    (∀ (cfg : Config) (s : BuildState) (out : MemOutcome),
      out.deadlineExceeded = true →
      (compileToMemory cfg s out).1 = .error (.timeout cfg.Timeout) ∧
      resultIsTimeout (compileToMemory cfg s out).1 = true) ∧
    (∀ (cfg : Config) (tmp : String) (o : SyncOutcome) (fs : Fs)
      (rE : Option String) (e : String),
      o.deadlineExceeded = true → o.procErr = some e →
      compileSync cfg tmp o fs rE =
        (.error (.buildFailure (syncFailMsg e o.combinedOutput)), cleanupTempFile fs tmp) ∧
      resultIsTimeout (compileSync cfg tmp o fs rE).1 = false) := by
  constructor
  · intro cfg s out h
    constructor
    · simp [compileToMemory, h]
    · simp [compileToMemory, h, resultIsTimeout, CompErr.isTimeout]
  · intro cfg tmp o fs rE e hd he
    constructor
    · simp [compileSync, he]
    · simp [compileSync, he, resultIsTimeout, CompErr.isTimeout]

/-- A memory run whose deadline elapsed. -/
def memTimedOut : MemOutcome :=
  { stdoutBuf := []
    stderrBuf := ""
    procErr := some "signal: killed"
    deadlineExceeded := true }

/-- Witness for C2's amended statement on concrete timed-out runs of both
paths. -/
theorem timeout_error_kinds_witness :
    (compileToMemory cfgA initState memTimedOut).1 = .error (.timeout cfgA.Timeout) ∧
    resultIsTimeout (compileSync cfgA "t" outTimedOut [] none).1 = false := by
  refine ⟨(timeout_error_kinds.1 cfgA initState memTimedOut rfl).1, ?_⟩
  exact (timeout_error_kinds.2 cfgA "t" outTimedOut [] none "signal: killed" rfl rfl).2

/-- C9: `Cancel` with an active job fires its cancellation trigger and
clears the reference immediately; with no active job it succeeds as a
no-op leaving the state unchanged; a second `Cancel` in a row is a no-op
and `IsCompiling` reports false afterwards. -/
theorem cancel_contract (s : BuildState) :
    (∀ j, s.active = some j →
      Cancel s = (none, { s with active := none, cancelled := j.jid :: s.cancelled })) ∧
    (s.active = none → Cancel s = (none, s)) ∧
    (Cancel s).1 = none ∧
    Cancel (Cancel s).2 = (none, (Cancel s).2) ∧
    isCompiling (Cancel s).2 = false := by
  refine ⟨?_, ?_, ?_, ?_, ?_⟩ <;> cases h : s.active <;>
    simp [Cancel, h, isCompiling]

/-- Witness for C9: cancelling a fresh builder is a successful no-op. -/
theorem cancel_contract_witness :
    Cancel initState = (none, initState) :=
  (cancel_contract initState).2.1 rfl

/-- Number of Compilation Jobs the orchestrator references as active. -/
def activeCount (s : BuildState) : Nat :=
  match s.active with
  | some _ => 1
  | none => 0

/-- C4: at most one Compilation Job is referenced as active at any instant;
a new request cancels and clears the previous active job before installing
its own fresh one, and a completing job clears the reference only when it
still points to itself, so a superseded job never clears a newer job's
reference.  Well-formedness (active identities below the fresh counter) is
preserved by every operation, making the installed job distinct from any
previous one. -/
theorem single_active_job (s : BuildState) :
    activeCount s ≤ 1 ∧
    (∀ tmp, startJob s tmp = installJob (cancelActive s) tmp) ∧
    (cancelActive s).active = none ∧
    (∀ j, s.active = some j → j.jid ∈ (cancelActive s).cancelled) ∧
    (∀ tmp, (startJob s tmp).2.active = some (startJob s tmp).1) ∧
    (∀ tmp j, wfState s → s.active = some j → (startJob s tmp).1.jid ≠ j.jid) ∧
    (∀ j a, s.active = some a → a.jid ≠ j.jid → finishJob s j = s) ∧
    (∀ j, (finishJob s j).active = none ∨ (finishJob s j).active = s.active) ∧
    (∀ tmp, wfState s → wfState (startJob s tmp).2) ∧
    (∀ j, wfState s → wfState (finishJob s j)) ∧
    (wfState s → wfState (Cancel s).2) ∧
    wfState initState ∧
    (∀ cfg out, (compileToMemory cfg s out).2 =
      finishJob (startJob s "memory").2 (startJob s "memory").1) ∧
    (∀ cfg out, (compileToMemory cfg s out).2.active = none) := by
  have hmem : ∀ cfg out, (compileToMemory cfg s out).2 =
      finishJob (startJob s "memory").2 (startJob s "memory").1 := by
    intro cfg out
    unfold compileToMemory
    by_cases h : out.deadlineExceeded = true
    · simp [h]
    · simp [h]
      cases out.procErr <;> simp
  have hstart : ∀ tmp, (startJob s tmp).2.active = some (startJob s tmp).1 := by
    intro tmp
    cases h : s.active <;> simp [startJob, installJob, cancelActive, h]
  refine ⟨?_, fun tmp => rfl, ?_, ?_, hstart, ?_, ?_, ?_, ?_, ?_, ?_, ?_, hmem, ?_⟩
  · cases h : s.active <;> simp [activeCount, h]
  · cases h : s.active <;> simp [cancelActive, h]
  · intro j hj
    simp [cancelActive, hj]
  · intro tmp j hwf hj
    have h1 : (startJob s tmp).1.jid = s.nextId := by
      cases h : s.active <;> simp [startJob, installJob, cancelActive, h]
    have h2 : j.jid < s.nextId := hwf j hj
    omega
  · intro j a ha hne
    simp [finishJob, ha, hne]
  · intro j
    cases h : s.active with
    | none => exact Or.inr (by simp [finishJob, h])
    | some a =>
      by_cases he : a.jid = j.jid
      · exact Or.inl (by simp [finishJob, h, he])
      · exact Or.inr (by simp [finishJob, h, he])
  · intro tmp hwf j hj
    have h1 : (startJob s tmp).2.nextId = s.nextId + 1 := by
      cases h : s.active <;> simp [startJob, installJob, cancelActive, h]
    rw [hstart tmp] at hj
    have h2 : (startJob s tmp).1.jid = s.nextId := by
      cases h : s.active <;> simp [startJob, installJob, cancelActive, h]
    cases hj
    omega
  · intro j hwf k hk
    have hn : (finishJob s j).nextId = s.nextId := by
      unfold finishJob
      cases h : s.active with
      | none => rfl
      | some a => by_cases he : a.jid = j.jid <;> simp [he]
    rw [hn]
    unfold finishJob at hk
    cases h : s.active with
    | none =>
      rw [h] at hk
      exact hwf k hk
    | some a =>
      rw [h] at hk
      by_cases he : a.jid = j.jid
      · simp [he] at hk
      · simp [he] at hk
        exact hwf k hk
  · intro hwf j hj
    cases h : s.active with
    | none =>
      have hc : (Cancel s).2 = s := by simp [Cancel, h]
      rw [hc] at hj
      rw [hc]
      exact hwf j hj
    | some a =>
      have hc : (Cancel s).2.active = none := by simp [Cancel, h]
      rw [hc] at hj
      cases hj
  · intro j hj
    cases hj
  · intro cfg out
    rw [hmem cfg out]
    unfold finishJob
    rw [hstart "memory"]
    simp

/-- A builder state with one active job, used to instantiate C4. -/
def sOne : BuildState :=
  { active := some { jid := 0, tempFile := "app_temp_7.exe", memoryBytes := [] }
    nextId := 1
    cancelled := [] }

/-- Witness for C4: on a concrete well-formed state with an active job, the
newly installed job is distinct from the cancelled one. -/
theorem single_active_job_witness :
    (startJob sOne "t").1.jid ≠ 0 := by
  have hwf : wfState sOne := by
    intro j hj
    simp [sOne] at hj
    rw [← hj]
    decide
  exact (single_active_job sOne).2.2.2.2.2.1 "t"
    { jid := 0, tempFile := "app_temp_7.exe", memoryBytes := [] } hwf rfl

/-- The configuration of the in-memory compilation test, timeout already
defaulted. -/
def cfgMem : Config :=
  { AppRootDir := "/proj"
    Command := "go"
    MainInputFileRelativePath := "main.go"
    OutName := "testapp"
    Extension := ""
    CompilingArguments := none
    OutFolderRelativePath := "/proj"
    hasLogger := true
    hasCallback := false
    Timeout := fiveSeconds
    Env := [] }

/-- A successful memory run whose standard-output capture holds the four
ELF magic bytes. -/
def memOK : MemOutcome :=
  { stdoutBuf := [0x7f, 0x45, 0x4c, 0x46]
    stderrBuf := ""
    procErr := none
    deadlineExceeded := false }

/-- A memory compilation always ends with the active-job reference
cleared: the job it installs is the one its epilogue compares against. -/
theorem memory_clears_active (cfg : Config) (s : BuildState) (out : MemOutcome) :
    (compileToMemory cfg s out).2.active = none := by
  have hmem : (compileToMemory cfg s out).2 =
      finishJob (startJob s "memory").2 (startJob s "memory").1 := by
    unfold compileToMemory
    by_cases h : out.deadlineExceeded = true
    · simp [h]
    · simp [h]
      cases out.procErr <;> simp
  have hstart : (startJob s "memory").2.active = some (startJob s "memory").1 := by
    cases h : s.active <;> simp [startJob, installJob, cancelActive, h]
  rw [hmem]
  unfold finishJob
  rw [hstart]
  simp

/-- C1 evaluated at the failing input: a successful `CompileToMemory` does
return the captured standard-output buffer verbatim, but the job's
`memoryBytes` field is never written and the active-job reference is
cleared on completion, so `getBinaryBytes` falls back to a disk read and,
with no file at the final output path, `BinarySize` reports `"0.0 KB"`
instead of the buffer's size — after any memory compilation the accessor
always reads from disk, never from the returned buffer. -/
theorem compileToMemory_buffer_not_queryable :
    (compileToMemory cfgMem initState memOK).1 = .ok memOK.stdoutBuf ∧
    memOK.stdoutBuf.length = 4 ∧
    (compileToMemory cfgMem initState memOK).2.active = none ∧
    getBinaryBytes cfgMem (compileToMemory cfgMem initState memOK).2 (fun _ => none) = [] ∧
    BinarySize (some (getBinaryBytes cfgMem (compileToMemory cfgMem initState memOK).2
      (fun _ => none))) = "0.0 KB" ∧
    (∀ (cfg : Config) (s : BuildState) (out : MemOutcome)
      (fs0 : String → Option (List UInt8)),
      getBinaryBytes cfg (compileToMemory cfg s out).2 fs0 =
        (fs0 (finalOutputPath cfg)).getD []) := by
  refine ⟨by decide, by decide, by decide, by decide, by decide, ?_⟩
  intro cfg s out fs0
  simp [getBinaryBytes, memory_clears_active cfg s out]

/-- A configuration carrying environment-variable overrides for a wasm
build. -/
def cfgEnv : Config :=
  { cfgA with AppRootDir := "/proj", Env := ["GOOS=js", "GOARCH=wasm"] }

/-- A sample inherited process environment. -/
def osEnv0 : List String := ["PATH=/usr/bin", "HOME=/root"]

/-- C3 evaluated at the failing input: the memory path does set the working
directory to the configured root directory, but it assigns the inherited
environment alone, so a configured override such as `GOOS=js` never
reaches the process — unlike the disk path, which appends the overrides to
the inherited environment. -/
theorem compileToMemory_env_dropped :
    (memCmd cfgEnv osEnv0).dir = cfgEnv.AppRootDir ∧
    cfgEnv.Env.length = 2 ∧
    (memCmd cfgEnv osEnv0).env = osEnv0 ∧
    (memCmd cfgEnv osEnv0).env.contains "GOOS=js" = false ∧
    (syncCmd cfgEnv osEnv0 "t").env = osEnv0 ++ cfgEnv.Env ∧
    (syncCmd cfgEnv osEnv0 "t").env.contains "GOOS=js" = true := by
  decide

end Gobuild
